import Mathlib

/-!
Shallow embedding of the core of the Canvelete TypeScript SDK:
webhook signature verification (src/utils/webhooks.ts), the HTTP
status to error mapper (src/client.ts, handleResponseErrors), the
retry engine (src/utils/retry.ts, withRetry), and the completion-wait
loops (src/resources/render.ts, waitForCompletion / waitForBatch).

JavaScript strings are modelled as Lean `String`; JavaScript numbers
appearing in retry delays are modelled as exact rationals (the values
exercised are small integers, for which IEEE doubles are exact);
integer timestamps and HTTP statuses are `Nat`/`Int`.  The Node
`crypto` HMAC-SHA256 primitive is an external collaborator and is
modelled as an abstract function parameter `hmac : String -> String ->
String` (secret, message -> hex digest); theorems that need facts
about real digests (non-empty, hex characters only) take them as
hypotheses.
-/

/-- Decimal digit character: models how JavaScript renders a digit of a
number in template interpolation. -/
def decDigit (d : Nat) : Char := Char.ofNat (48 + d)

/-- Fuel-driven decimal rendering of a natural number, most significant
digit first; `fuel = n + 1` always suffices. Models the JavaScript
number-to-string conversion in template literals for non-negative
integers. -/
def natToDecAux : Nat → Nat → List Char → List Char
  | 0, _, acc => acc
  | fuel + 1, n, acc =>
    if n < 10 then decDigit n :: acc
    else natToDecAux fuel (n / 10) (decDigit (n % 10) :: acc)

/-- Decimal string of a natural number, as JavaScript renders it in a
template literal. -/
def natToDecimal (n : Nat) : String := ⟨natToDecAux (n + 1) n []⟩

/-- Is this character an ASCII decimal digit. -/
def isDecDigit (c : Char) : Bool := 48 ≤ c.toNat && c.toNat ≤ 57

/-- Numeric value of leading decimal digits, folded left, starting from
`a`: models the digit-accumulation loop of JavaScript `parseInt` once
the leading digits are isolated. -/
def decFold (cs : List Char) (a : Nat) : Nat :=
  cs.foldl (fun acc c => acc * 10 + (c.toNat - 48)) a

/-- Consume leading decimal digits of a character list, accumulating
their value onto `a`; stops at the first non-digit. -/
def parseDigitsAux : List Char → Nat → Nat
  | [], a => a
  | c :: rest, a =>
    if isDecDigit c then parseDigitsAux rest (a * 10 + (c.toNat - 48)) else a

/-- JavaScript whitespace test (the common ASCII cases). -/
def jsIsSpace (c : Char) : Bool := c = ' ' || c = '\t' || c = '\n' || c = '\r'

/-- Value of the leading run of decimal digits, `none` when the list
does not start with a digit (JavaScript `parseInt` yields `NaN`). -/
def parseNatLead : List Char → Option Nat
  | [] => none
  | c :: rest => if isDecDigit c then some (parseDigitsAux (c :: rest) 0) else none

/-- Model of JavaScript `parseInt(s, 10)`: skip whitespace, optional
sign, then the value of the leading decimal digits; `none` models
`NaN`.  (The radix-free `parseInt` call in client.ts differs only on
`0x`-prefixed input, which no claim exercises.) -/
def parseIntJS (s : String) : Option Int :=
  match s.data.dropWhile jsIsSpace with
  | [] => none
  | c :: rest =>
    if c = '-' then (parseNatLead rest).map (fun n => -(n : Int))
    else if c = '+' then (parseNatLead rest).map (fun n => (n : Int))
    else (parseNatLead (c :: rest)).map (fun n => (n : Int))

/-- Split a character list at every occurrence of `sep`, keeping empty
segments: models JavaScript `String.split` with a one-character
separator.  `cur` is the reversed current segment. -/
def splitCharAux (sep : Char) : List Char → List Char → List (List Char)
  | [], cur => [cur.reverse]
  | c :: rest, cur =>
    if c = sep then cur.reverse :: splitCharAux sep rest []
    else splitCharAux sep rest (c :: cur)

/-- JavaScript `s.split(sep)` for a one-character separator. -/
def jsSplit (sep : Char) (s : String) : List String :=
  (splitCharAux sep s.data []).map (fun l => ⟨l⟩)

/-- Replace the binding of `k` (first occurrence) or append it: models
assignment into a JavaScript object used as a string map. -/
def setKey : List (String × String) → String → String → List (String × String)
  | [], k, v => [(k, v)]
  | (k', v') :: rest, k, v =>
    if k' = k then (k, v) :: rest else (k', v') :: setKey rest k v

/-- Lookup in the string map built by `setKey`; `none` models a
JavaScript `undefined` property read. -/
def getKey : List (String × String) → String → Option String
  | [], _ => none
  | (k', v) :: rest, k => if k' = k then some v else getKey rest k

/-- First two components of a split result: models the JavaScript
destructuring `const [key, value] = part.split('=')`, with `none` when
`value` would be `undefined`. -/
def keyValOf : List String → Option (String × String)
  | k :: v :: _ => some (k, v)
  | _ => none

/-- Model of the signature-header parsing loop of
`verifyWebhookSignature` (src/utils/webhooks.ts): split on commas,
destructure each part around its equals signs, and record the pair
only when both the key and value are non-empty (JavaScript truthiness
of `key && value`). -/
def parseSignatureHeader (signature : String) : List (String × String) :=
  (jsSplit ',' signature).foldl
    (fun m part =>
      match keyValOf (jsSplit '=' part) with
      | some (k, v) => if k ≠ "" ∧ v ≠ "" then setKey m k v else m
      | none => m)
    []

/-- Model of Node `timingSafeEqual` on the UTF-8 buffers of two strings,
wrapped in the source's try/catch: equal byte lengths compare the
bytes (equality of the strings), differing byte lengths throw and the
catch turns that into `false`. -/
def timingSafeEqualStr (a b : String) : Bool :=
  if a.utf8ByteSize = b.utf8ByteSize then decide (a = b) else false

/-- Model of `verifyWebhookSignature` (src/utils/webhooks.ts).  `hmac`
stands for the Node crypto HMAC-SHA256 hex digest, `now` for
`Math.floor(Date.now() / 1000)` at verification time.  A timestamp
string that `parseInt` cannot parse makes `Math.abs(now - NaN) >
tolerance` evaluate to `false` in JavaScript (NaN comparison), so no
early rejection happens and the raw timestamp string flows into the
signed payload, exactly as in the source. -/
def verifyWebhookSignature (hmac : String → String → String) (now : Int)
    (payload signature secret : String) (tolerance : Int) : Bool :=
  let signatureParts := parseSignatureHeader signature
  match getKey signatureParts "t", getKey signatureParts "v1" with
  | some timestamp, some v1Signature =>
    let outOfTolerance : Bool :=
      match parseIntJS timestamp with
      | some t => decide (tolerance < |now - t|)
      | none => false
    if outOfTolerance then false
    else
      let signedPayload := timestamp ++ "." ++ payload
      let expectedSignature := hmac secret signedPayload
      timingSafeEqualStr v1Signature expectedSignature
  | _, _ => false

/-- Model of `generateWebhookSignature` (src/utils/webhooks.ts); `now`
is `Math.floor(Date.now() / 1000)` at generation time. -/
def generateWebhookSignature (hmac : String → String → String) (now : Nat)
    (payload secret : String) : String :=
  let timestamp := natToDecimal now
  let signedPayload := timestamp ++ "." ++ payload
  let signature := hmac secret signedPayload
  "t=" ++ timestamp ++ ",v1=" ++ signature

theorem string_mk_data (s : String) : (⟨s.data⟩ : String) = s := rfl

theorem decDigit_spec {d : Nat} (h : d < 10) :
    isDecDigit (decDigit d) = true ∧ (decDigit d).toNat = 48 + d ∧
    decDigit d ≠ ',' ∧ decDigit d ≠ '=' ∧ decDigit d ≠ '-' ∧ decDigit d ≠ '+' ∧
    jsIsSpace (decDigit d) = false := by
  interval_cases d <;> decide

theorem natToDecAux_spec : ∀ fuel n : Nat, n < fuel → ∀ acc, ∃ ds,
    natToDecAux fuel n acc = ds ++ acc ∧ ds ≠ [] ∧
    (∀ c ∈ ds, ∃ d, d < 10 ∧ c = decDigit d) ∧
    (∀ a, decFold ds a = a * 10 ^ ds.length + n) := by
  intro fuel
  induction fuel with
  | zero => intro n h; omega
  | succ f ih =>
    intro n h acc
    by_cases h10 : n < 10
    · refine ⟨[decDigit n], by simp [natToDecAux, h10], by simp, ?_, ?_⟩
      · intro c hc
        simp only [List.mem_singleton] at hc
        exact ⟨n, h10, hc⟩
      · intro a
        have := (decDigit_spec h10).2.1
        simp [decFold, this]
    · have hdiv : n / 10 < f := by omega
      obtain ⟨ds, heq, hne, hdig, hfold⟩ := ih (n / 10) hdiv (decDigit (n % 10) :: acc)
      refine ⟨ds ++ [decDigit (n % 10)], ?_, by simp, ?_, ?_⟩
      · simp only [natToDecAux, h10, if_false, heq, List.append_assoc, List.cons_append,
          List.nil_append]
      · intro c hc
        rcases List.mem_append.mp hc with hc | hc
        · exact hdig c hc
        · simp only [List.mem_singleton] at hc
          exact ⟨n % 10, Nat.mod_lt _ (by omega), hc⟩
      · intro a
        have hm : n % 10 < 10 := Nat.mod_lt _ (by omega)
        have hdd := (decDigit_spec hm).2.1
        simp only [decFold] at hfold ⊢
        rw [List.foldl_append, hfold a]
        simp only [List.foldl_cons, List.foldl_nil, List.length_append, List.length_singleton,
          hdd]
        have : 10 ^ (ds.length + 1) = 10 ^ ds.length * 10 := pow_succ 10 ds.length
        rw [this]
        have hnm : n / 10 * 10 + n % 10 = n := Nat.div_add_mod' n 10
        ring_nf
        omega

theorem parseDigitsAux_eq_decFold :
    ∀ cs, (∀ c ∈ cs, isDecDigit c = true) → ∀ a, parseDigitsAux cs a = decFold cs a := by
  intro cs
  induction cs with
  | nil => intro _ a; rfl
  | cons c rest ih =>
    intro hall a
    have hc : isDecDigit c = true := hall c (by simp)
    simp only [parseDigitsAux, hc, if_true, decFold, List.foldl_cons]
    exact ih (fun x hx => hall x (by simp [hx])) _

theorem natToDecimal_spec (n : Nat) : ∃ ds,
    (natToDecimal n).data = ds ∧ ds ≠ [] ∧
    (∀ c ∈ ds, ∃ d, d < 10 ∧ c = decDigit d) ∧ decFold ds 0 = n := by
  obtain ⟨ds, heq, hne, hdig, hfold⟩ := natToDecAux_spec (n + 1) n (Nat.lt_succ_self n) []
  refine ⟨ds, ?_, hne, hdig, ?_⟩
  · simp [natToDecimal, heq]
  · have := hfold 0
    simpa using this

theorem parseIntJS_natToDecimal (n : Nat) : parseIntJS (natToDecimal n) = some (n : Int) := by
  obtain ⟨ds, hdata, hne, hdig, hfold⟩ := natToDecimal_spec n
  cases ds with
  | nil => exact absurd rfl hne
  | cons c rest =>
    obtain ⟨d, hd, hc⟩ := hdig c (by simp)
    have hspec := decDigit_spec hd
    have hnospace : jsIsSpace c = false := by rw [hc]; exact hspec.2.2.2.2.2.2
    have hdigc : isDecDigit c = true := by rw [hc]; exact hspec.1
    have hneg : c ≠ '-' := by rw [hc]; exact hspec.2.2.2.2.1
    have hpos : c ≠ '+' := by rw [hc]; exact hspec.2.2.2.2.2.1
    simp only [parseIntJS, hdata, List.dropWhile_cons, hnospace, Bool.false_eq_true, if_false,
      hneg, hpos, if_false]
    simp only [parseNatLead, hdigc, if_true]
    rw [parseDigitsAux_eq_decFold]
    · rw [hfold]; simp
    · intro x hx
      obtain ⟨d', hd', hx'⟩ := hdig x hx
      rw [hx']
      exact (decDigit_spec hd').1

theorem natToDecimal_ne_empty (n : Nat) : natToDecimal n ≠ "" := by
  obtain ⟨ds, hdata, hne, _, _⟩ := natToDecimal_spec n
  intro h
  rw [String.ext_iff, hdata] at h
  exact hne h

theorem natToDecimal_no_sep (n : Nat) :
    ∀ c ∈ (natToDecimal n).data, c ≠ ',' ∧ c ≠ '=' := by
  obtain ⟨ds, hdata, _, hdig, _⟩ := natToDecimal_spec n
  rw [hdata]
  intro c hc
  obtain ⟨d, hd, rfl⟩ := hdig c hc
  exact ⟨(decDigit_spec hd).2.2.1, (decDigit_spec hd).2.2.2.1⟩

theorem splitCharAux_no_sep (sep : Char) :
    ∀ xs cur, (∀ c ∈ xs, c ≠ sep) → splitCharAux sep xs cur = [cur.reverse ++ xs] := by
  intro xs
  induction xs with
  | nil => intro cur _; simp [splitCharAux]
  | cons c rest ih =>
    intro cur hall
    have hc : c ≠ sep := hall c (by simp)
    simp only [splitCharAux, hc, if_false]
    rw [ih (c :: cur) (fun x hx => hall x (by simp [hx]))]
    simp

theorem splitCharAux_sep_split (sep : Char) :
    ∀ xs cur ys, (∀ c ∈ xs, c ≠ sep) →
    splitCharAux sep (xs ++ sep :: ys) cur =
      (cur.reverse ++ xs) :: splitCharAux sep ys [] := by
  intro xs
  induction xs with
  | nil => intro cur ys _; simp [splitCharAux]
  | cons c rest ih =>
    intro cur ys hall
    have hc : c ≠ sep := hall c (by simp)
    have hcons : (c :: rest) ++ sep :: ys = c :: (rest ++ sep :: ys) := rfl
    have hstep : splitCharAux sep (c :: (rest ++ sep :: ys)) cur
        = splitCharAux sep (rest ++ sep :: ys) (c :: cur) := by
      simp [splitCharAux, hc]
    rw [hcons, hstep, ih (c :: cur) ys (fun x hx => hall x (by simp [hx]))]
    simp

theorem parseSignatureHeader_generated (ts dg : String)
    (htsne : ts ≠ "") (hts : ∀ c ∈ ts.data, c ≠ ',' ∧ c ≠ '=')
    (hdgne : dg ≠ "") (hdg : ∀ c ∈ dg.data, c ≠ ',' ∧ c ≠ '=') :
    parseSignatureHeader ("t=" ++ ts ++ ",v1=" ++ dg) = [("t", ts), ("v1", dg)] := by
  have hdata : ("t=" ++ ts ++ ",v1=" ++ dg).data =
      ('t' :: '=' :: ts.data) ++ ',' :: ('v' :: '1' :: '=' :: dg.data) := by
    simp [String.data_append]
  have hsplit : jsSplit ',' ("t=" ++ ts ++ ",v1=" ++ dg) =
      [⟨'t' :: '=' :: ts.data⟩, ⟨'v' :: '1' :: '=' :: dg.data⟩] := by
    simp only [jsSplit, hdata]
    rw [splitCharAux_sep_split ',' ('t' :: '=' :: ts.data) [] ('v' :: '1' :: '=' :: dg.data)
      (by intro c hc
          simp only [List.mem_cons] at hc
          rcases hc with rfl | rfl | hc
          · decide
          · decide
          · exact (hts c hc).1)]
    rw [splitCharAux_no_sep ',' ('v' :: '1' :: '=' :: dg.data) []
      (by intro c hc
          simp only [List.mem_cons] at hc
          rcases hc with rfl | rfl | rfl | hc
          · decide
          · decide
          · decide
          · exact (hdg c hc).1)]
    simp
  have hts_pieces : jsSplit '=' (⟨'t' :: '=' :: ts.data⟩ : String) = ["t", ts] := by
    simp only [jsSplit]
    rw [show ('t' :: '=' :: ts.data : List Char) = ['t'] ++ '=' :: ts.data from rfl,
      splitCharAux_sep_split '=' ['t'] [] ts.data
        (by intro c hc; simp only [List.mem_singleton] at hc; subst hc; decide),
      splitCharAux_no_sep '=' ts.data [] (fun c hc => (hts c hc).2)]
    simp [string_mk_data]
  have hdg_pieces : jsSplit '=' (⟨'v' :: '1' :: '=' :: dg.data⟩ : String) = ["v1", dg] := by
    simp only [jsSplit]
    rw [show ('v' :: '1' :: '=' :: dg.data : List Char) = ['v', '1'] ++ '=' :: dg.data from rfl,
      splitCharAux_sep_split '=' ['v', '1'] [] dg.data
        (by intro c hc
            simp only [List.mem_cons, List.not_mem_nil, or_false] at hc
            rcases hc with rfl | rfl <;> decide),
      splitCharAux_no_sep '=' dg.data [] (fun c hc => (hdg c hc).2)]
    simp [string_mk_data]
  simp only [parseSignatureHeader, hsplit, List.foldl_cons, List.foldl_nil, hts_pieces,
    hdg_pieces, keyValOf]
  rw [if_pos ⟨by decide, hdgne⟩]
  rw [if_pos ⟨by decide, htsne⟩]
  simp [setKey]

/-- C1: verifying a signature produced by `generateWebhookSignature` for
the same payload and secret, with the verifier clock within the
300-second default tolerance of the generation time, returns true.
The HMAC primitive is abstract; the hypotheses record that a real
HMAC-SHA256 hex digest is non-empty and contains no comma or equals
character. -/
theorem C1_webhook_roundtrip (hmac : String → String → String) (genTime : Nat)
    (now : Int) (payload secret : String)
    (hdigest : ∀ s m, hmac s m ≠ "" ∧ ∀ c ∈ (hmac s m).data, c ≠ ',' ∧ c ≠ '=')
    (hclock : |now - (genTime : Int)| ≤ 300) :
    verifyWebhookSignature hmac now payload
      (generateWebhookSignature hmac genTime payload secret) secret 300 = true := by
  have hgen : generateWebhookSignature hmac genTime payload secret =
      "t=" ++ natToDecimal genTime ++ ",v1=" ++
        hmac secret (natToDecimal genTime ++ "." ++ payload) := rfl
  set ts := natToDecimal genTime with hts
  set dg := hmac secret (ts ++ "." ++ payload) with hdg
  have hkt : getKey [("t", ts), ("v1", dg)] "t" = some ts := by
    simp [getKey]
  have hkv : getKey [("t", ts), ("v1", dg)] "v1" = some dg := by
    simp [getKey]
  rw [hgen]
  simp only [verifyWebhookSignature]
  rw [parseSignatureHeader_generated ts dg (natToDecimal_ne_empty genTime)
    (natToDecimal_no_sep genTime) (hdigest _ _).1 (hdigest _ _).2]
  simp only [hkt, hkv, parseIntJS_natToDecimal genTime]
  have htol : decide ((300 : Int) < |now - (genTime : Int)|) = false :=
    decide_eq_false (not_lt.mpr hclock)
  simp [htol, timingSafeEqualStr]

/-- Witness for C1 at a concrete HMAC stand-in, payload, secret and
clock. -/
theorem C1_webhook_roundtrip_witness :
    verifyWebhookSignature (fun _ _ => "ab") 1000 "hello"
      (generateWebhookSignature (fun _ _ => "ab") 1000 "hello" "sec") "sec" 300 = true :=
  C1_webhook_roundtrip (fun _ _ => "ab") 1000 1000 "hello" "sec"
    (by
      intro s m
      show ("ab" : String) ≠ "" ∧ ∀ c ∈ ("ab" : String).data, c ≠ ',' ∧ c ≠ '='
      decide)
    (by decide)

/-- C2 counterexample: the header `t=abc,v1=ff` has no well-formed
integer `t` key (`parseInt` yields NaN, modelled as `none`), yet when
the `v1` value matches the HMAC of `abc.p` the verifier returns true:
the NaN comparison `Math.abs(now - NaN) > tolerance` is false in
JavaScript, so the malformed timestamp is never rejected. -/
theorem C2_counterexample :
    parseIntJS "abc" = none ∧
    verifyWebhookSignature (fun _ _ => "ff") 1000 "p" "t=abc,v1=ff" "s" 300 = true := by
  decide

/-- C2 (amended): verification returns false when the parsed header
lacks a `t` or a `v1` entry, and returns false when `t` parses as an
integer outside the tolerance window regardless of the `v1` value; a
`t` value that does not parse as an integer bypasses the tolerance
check and verification proceeds with the raw `t` string in the signed
payload. -/
theorem C2_amended (hmac : String → String → String) (now : Int)
    (payload signature secret : String) (tolerance : Int) :
    (getKey (parseSignatureHeader signature) "t" = none ∨
      getKey (parseSignatureHeader signature) "v1" = none →
      verifyWebhookSignature hmac now payload signature secret tolerance = false) ∧
    (∀ ts t, getKey (parseSignatureHeader signature) "t" = some ts →
      parseIntJS ts = some t → tolerance < |now - t| →
      verifyWebhookSignature hmac now payload signature secret tolerance = false) := by
  constructor
  · intro h
    rcases h with h | h
    · simp [verifyWebhookSignature, h]
    · cases ht : getKey (parseSignatureHeader signature) "t" with
      | none => simp [verifyWebhookSignature, ht]
      | some ts => simp [verifyWebhookSignature, ht, h]
  · intro ts t hts hpt htol
    cases hv : getKey (parseSignatureHeader signature) "v1" with
    | none => simp [verifyWebhookSignature, hts, hv]
    | some v1 =>
      have hdec : decide (tolerance < |now - t|) = true := decide_eq_true htol
      simp [verifyWebhookSignature, hts, hv, hpt, hdec]

/-- Witness for C2 (amended): a header with no `t` key fails, and a
header whose timestamp is 3000 seconds old fails even though the `v1`
digest matches. -/
theorem C2_amended_witness :
    verifyWebhookSignature (fun _ _ => "ff") 1000 "p" "v1=ff" "s" 300 = false ∧
    verifyWebhookSignature (fun _ _ => "ff") 1000 "p" "t=4000,v1=ff" "s" 300 = false :=
  ⟨(C2_amended (fun _ _ => "ff") 1000 "p" "v1=ff" "s" 300).1 (Or.inl (by decide)),
   (C2_amended (fun _ _ => "ff") 1000 "p" "t=4000,v1=ff" "s" 300).2 "4000" 4000
     (by decide) (by decide) (by decide)⟩

/-- JavaScript number that is either NaN or an integer: the only
numbers the modelled code paths can produce for `retryAfter`. -/
inductive JSNum where
  | nan : JSNum
  | int (n : Int) : JSNum
deriving DecidableEq, Repr

/-- The closed error hierarchy of src/errors.ts.  Every class extends
`CanveleteError` directly; `RateLimitError` additionally carries
`retryAfter : number | null` (null modelled as `none`).  The raw
`response` handle is omitted: no modelled code path reads it. -/
inductive SdkError where
  | canvelete (message : String) (statusCode : Option Nat)
  | authentication (message : String) (statusCode : Option Nat)
  | validation (message : String) (statusCode : Option Nat)
  | notFound (message : String) (statusCode : Option Nat)
  | rateLimit (message : String) (retryAfter : Option JSNum) (statusCode : Option Nat)
  | server (message : String) (statusCode : Option Nat)
  | insufficientScope (message : String) (statusCode : Option Nat)
deriving DecidableEq, Repr

/-- The error classes that can appear in a `retryOn` list or be named
in an `instanceof` test. -/
inductive ErrClass where
  | canveleteError
  | authenticationError
  | validationError
  | notFoundError
  | rateLimitError
  | serverError
  | insufficientScopeError
deriving DecidableEq, Repr

/-- JavaScript `error instanceof Class` over the hierarchy of
src/errors.ts: every SDK error is an instance of `CanveleteError`,
and each leaf class matches exactly its own constructor. -/
def instanceOf : SdkError → ErrClass → Bool
  | _, .canveleteError => true
  | .authentication _ _, .authenticationError => true
  | .validation _ _, .validationError => true
  | .notFound _ _, .notFoundError => true
  | .rateLimit _ _ _, .rateLimitError => true
  | .server _ _, .serverError => true
  | .insufficientScope _ _, .insufficientScopeError => true
  | _, _ => false

/-- Leaf class of an error value (which constructor built it). -/
def classOfError : SdkError → ErrClass
  | .canvelete _ _ => .canveleteError
  | .authentication _ _ => .authenticationError
  | .validation _ _ => .validationError
  | .notFound _ _ => .notFoundError
  | .rateLimit _ _ _ => .rateLimitError
  | .server _ _ => .serverError
  | .insufficientScope _ _ => .insufficientScopeError

/-- JavaScript `toLowerCase` (the ASCII case mapping, which is all the
modelled messages exercise). -/
def lowerStr (s : String) : String := ⟨s.data.map Char.toLower⟩

/-- Does the second list start with the first. -/
def leadsWith : List Char → List Char → Bool
  | [], _ => true
  | _ :: _, [] => false
  | p :: ps, c :: cs => (p == c) && leadsWith ps cs

/-- Does the second list contain the first as a contiguous run. -/
def containsSub : List Char → List Char → Bool
  | pat, [] => leadsWith pat []
  | pat, c :: cs => leadsWith pat (c :: cs) || containsSub pat cs

/-- JavaScript `s.includes(pat)`. -/
def includesStr (s pat : String) : Bool := containsSub pat.data s.data

/-- JavaScript `a || b` on strings (the empty string is falsy), with an
absent (`undefined`) left operand modelled as `none`. -/
def jsOrStr (o : Option String) (d : String) : String :=
  match o with
  | some s => if s = "" then d else s
  | none => d

/-- Message derivation of `handleResponseErrors` (src/client.ts):
`errorData.error || errorData.message || "HTTP <status>"`, with the
whole body falling back to the default when JSON parsing of the
response body fails (`body = none`). -/
def deriveMessage (status : Nat) (body : Option (Option String × Option String)) : String :=
  match body with
  | none => "HTTP " ++ natToDecimal status
  | some (err, msg) => jsOrStr err (jsOrStr msg ("HTTP " ++ natToDecimal status))

/-- Retry-After handling of the 429 branch of `handleResponseErrors`
(src/client.ts): `retryAfter ? parseInt(retryAfter) : null`, where
`headers.get` yields `null` (`none`) for an absent header, the empty
string is falsy, and an unparsable header makes `parseInt` give NaN. -/
def parseRetryAfter (header : Option String) : Option JSNum :=
  match header with
  | none => none
  | some h =>
    if h = "" then none
    else some (match parseIntJS h with
      | some n => JSNum.int n
      | none => JSNum.nan)

/-- Model of `handleResponseErrors` (src/client.ts): statuses below 400
succeed (`none` — no error thrown); otherwise exactly one error is
produced according to the status switch. -/
def handleResponseErrors (status : Nat) (body : Option (Option String × Option String))
    (retryAfterHeader : Option String) : Option SdkError :=
  if status < 400 then none
  else
    let message := deriveMessage status body
    some (
      if status = 401 then .authentication message (some 401)
      else if status = 403 then
        (if includesStr (lowerStr message) "scope" then .insufficientScope message (some 403)
         else .authentication message (some 403))
      else if status = 404 then .notFound message (some 404)
      else if status = 422 then .validation message (some 422)
      else if status = 429 then .rateLimit message (parseRetryAfter retryAfterHeader) (some 429)
      else if 500 ≤ status then .server message (some status)
      else .canvelete message (some status))

/-- C5: the status-to-error table of `handleResponseErrors`: 401 and
non-scope 403 give Authentication, scope-mentioning 403 gives
InsufficientScope, 404 NotFound, 422 Validation, 429 RateLimit,
500 and above Server, any other status of at least 400 the generic
CanveleteError, and statuses below 400 raise nothing. -/
theorem C5_status_mapping (status : Nat) (body : Option (Option String × Option String))
    (hdr : Option String) :
    (status < 400 → handleResponseErrors status body hdr = none) ∧
    (status = 401 → handleResponseErrors status body hdr =
      some (.authentication (deriveMessage status body) (some 401))) ∧
    (status = 403 → includesStr (lowerStr (deriveMessage status body)) "scope" = true →
      handleResponseErrors status body hdr =
        some (.insufficientScope (deriveMessage status body) (some 403))) ∧
    (status = 403 → includesStr (lowerStr (deriveMessage status body)) "scope" = false →
      handleResponseErrors status body hdr =
        some (.authentication (deriveMessage status body) (some 403))) ∧
    (status = 404 → handleResponseErrors status body hdr =
      some (.notFound (deriveMessage status body) (some 404))) ∧
    (status = 422 → handleResponseErrors status body hdr =
      some (.validation (deriveMessage status body) (some 422))) ∧
    (status = 429 → handleResponseErrors status body hdr =
      some (.rateLimit (deriveMessage status body) (parseRetryAfter hdr) (some 429))) ∧
    (500 ≤ status → handleResponseErrors status body hdr =
      some (.server (deriveMessage status body) (some status))) ∧
    (400 ≤ status → status < 500 → status ≠ 401 → status ≠ 403 → status ≠ 404 →
      status ≠ 422 → status ≠ 429 → handleResponseErrors status body hdr =
        some (.canvelete (deriveMessage status body) (some status))) := by
  refine ⟨?_, ?_, ?_, ?_, ?_, ?_, ?_, ?_, ?_⟩
  · intro h
    simp [handleResponseErrors, h]
  · intro h
    subst h
    simp [handleResponseErrors]
  · intro h hscope
    subst h
    simp [handleResponseErrors, hscope]
  · intro h hscope
    subst h
    simp [handleResponseErrors, hscope]
  · intro h
    subst h
    simp [handleResponseErrors]
  · intro h
    subst h
    simp [handleResponseErrors]
  · intro h
    subst h
    simp [handleResponseErrors]
  · intro h
    have h1 : ¬ status < 400 := by omega
    have h2 : status ≠ 401 := by omega
    have h3 : status ≠ 403 := by omega
    have h4 : status ≠ 404 := by omega
    have h5 : status ≠ 422 := by omega
    have h6 : status ≠ 429 := by omega
    simp [handleResponseErrors, h1, h2, h3, h4, h5, h6, h]
  · intro h400 h500 h2 h3 h4 h5 h6
    have h1 : ¬ status < 400 := by omega
    have h7 : ¬ 500 ≤ status := by omega
    simp [handleResponseErrors, h1, h2, h3, h4, h5, h6, h7]

/-- Witness for C5 at the spec's own examples: a 403 whose message
mentions scope maps to InsufficientScope, and a plain 403 maps to
Authentication. -/
theorem C5_status_mapping_witness :
    handleResponseErrors 403 (some (some "insufficient scope for this action", none)) none =
      some (.insufficientScope "insufficient scope for this action" (some 403)) ∧
    handleResponseErrors 403 (some (some "forbidden", none)) none =
      some (.authentication "forbidden" (some 403)) := by
  constructor
  · have h := (C5_status_mapping 403
      (some (some "insufficient scope for this action", none)) none).2.2.1 rfl (by decide)
    rw [show deriveMessage 403 (some (some "insufficient scope for this action", none)) =
      "insufficient scope for this action" from by decide] at h
    exact h
  · have h := (C5_status_mapping 403 (some (some "forbidden", none)) none).2.2.2.1 rfl
      (by decide)
    rw [show deriveMessage 403 (some (some "forbidden", none)) = "forbidden" from by decide] at h
    exact h

/-- C4 counterexample: a 429 whose Retry-After header is `abc` is
unparsable (`parseInt` gives NaN), yet the produced RateLimit error
carries NaN — not null as the claim states. -/
theorem C4_counterexample :
    parseIntJS "abc" = none ∧
    handleResponseErrors 429 (some (some "slow down", none)) (some "abc") =
      some (.rateLimit "slow down" (some JSNum.nan) (some 429)) := by
  decide

/-- C4 (amended): a 429 always maps to a RateLimit error whose
`retryAfter` is the parsed integer when the header is present,
non-empty and starts with an integer; NaN when the header is present
and non-empty but does not start with an integer; and null only when
the header is absent or the empty string. -/
theorem C4_amended (body : Option (Option String × Option String)) (hdr : Option String) :
    (handleResponseErrors 429 body hdr =
      some (.rateLimit (deriveMessage 429 body) (parseRetryAfter hdr) (some 429))) ∧
    (hdr = none → parseRetryAfter hdr = none) ∧
    (∀ h, hdr = some h → h = "" → parseRetryAfter hdr = none) ∧
    (∀ h n, hdr = some h → h ≠ "" → parseIntJS h = some n →
      parseRetryAfter hdr = some (JSNum.int n)) ∧
    (∀ h, hdr = some h → h ≠ "" → parseIntJS h = none →
      parseRetryAfter hdr = some JSNum.nan) := by
  refine ⟨?_, ?_, ?_, ?_, ?_⟩
  · simp [handleResponseErrors]
  · intro h
    subst h
    rfl
  · intro h hh he
    subst hh
    simp [parseRetryAfter, he]
  · intro h n hh hne hp
    subst hh
    simp [parseRetryAfter, hne, hp]
  · intro h hh hne hp
    subst hh
    simp [parseRetryAfter, hne, hp]

/-- Witness for C4 (amended) at the spec's scenario: status 429 with
`Retry-After: 10` and body error `slow down`. -/
theorem C4_amended_witness :
    handleResponseErrors 429 (some (some "slow down", none)) (some "10") =
      some (.rateLimit "slow down" (some (JSNum.int 10)) (some 429)) := by
  have h := (C4_amended (some (some "slow down", none)) (some "10")).1
  rw [show deriveMessage 429 (some (some "slow down", none)) = "slow down" from by decide] at h
  rw [show parseRetryAfter (some "10") = some (JSNum.int 10) from by decide] at h
  exact h

/-- Retry configuration (src/utils/retry.ts).  Delay values are
JavaScript numbers, modelled as exact rationals; `retryOn` holds the
error classes checked with `instanceof`. -/
structure RetryConfig where
  maxAttempts : Nat
  backoffFactor : ℚ
  initialDelay : ℚ
  maxDelay : ℚ
  retryOn : List ErrClass

/-- The `defaultConfig` of src/utils/retry.ts: 3 attempts, factor 2,
initial 1000 ms, cap 60000 ms, retrying RateLimitError and
ServerError. -/
def defaultConfig : RetryConfig :=
  { maxAttempts := 3, backoffFactor := 2, initialDelay := 1000, maxDelay := 60000,
    retryOn := [.rateLimitError, .serverError] }

/-- Model of `Math.min` on the rationals modelling the delay values. -/
def ratMin (a b : ℚ) : ℚ := if a ≤ b then a else b

/-- The `shouldRetry` test of `withRetry`:
`cfg.retryOn.some(ErrorClass => error instanceof ErrorClass)`. -/
def shouldRetryErr (cfg : RetryConfig) (e : SdkError) : Bool :=
  cfg.retryOn.any (fun cls => instanceOf e cls)

/-- Observable outcome of a `withRetry` run: what the promise settles
with, the sleeps performed between attempts (in order), and how many
times the wrapped operation was invoked. -/
structure RetryOutcome (α : Type) where
  result : Except SdkError α
  sleeps : List ℚ
  calls : Nat

/-- Delay actually slept after a failed retryable attempt: the source
checks `error instanceof RateLimitError && error.retryAfter` (truthy:
non-null, non-zero, non-NaN) and then overwrites the current delay
with `error.retryAfter * 1000`; otherwise the current backoff delay is
kept. -/
def hintedDelay (e : SdkError) (delay : ℚ) : ℚ :=
  match e with
  | .rateLimit _ (some (JSNum.int n)) _ => if n ≠ 0 then (n : ℚ) * 1000 else delay
  | _ => delay

/-- Loop of `withRetry` (src/utils/retry.ts).  `fn i` is the outcome of
the i-th invocation of the wrapped operation; `remaining =
cfg.maxAttempts - attempt` counts loop iterations still allowed; the
accumulators carry the sleeps (reversed) and the call count.  A
RateLimit error with a truthy `retryAfter` (non-null, non-zero,
non-NaN) overwrites the current delay with `retryAfter * 1000` before
the sleep; the exponential-backoff line then updates the delay from
whatever was slept.  When the while loop exits without returning, the
source throws a synthetic `CanveleteError('Max retry attempts
reached')`. -/
def withRetryAux {α : Type} (fn : Nat → Except SdkError α) (cfg : RetryConfig) :
    Nat → Nat → ℚ → List ℚ → Nat → RetryOutcome α
  | 0, _, _, sleeps, calls =>
    ⟨.error (.canvelete "Max retry attempts reached" none), sleeps.reverse, calls⟩
  | remaining + 1, attempt, delay, sleeps, calls =>
    match fn attempt with
    | .ok v => ⟨.ok v, sleeps.reverse, calls + 1⟩
    | .error e =>
      if shouldRetryErr cfg e = false ∨ cfg.maxAttempts ≤ attempt + 1 then
        ⟨.error e, sleeps.reverse, calls + 1⟩
      else
        withRetryAux fn cfg remaining (attempt + 1)
          (ratMin (hintedDelay e delay * cfg.backoffFactor) cfg.maxDelay)
          (hintedDelay e delay :: sleeps) (calls + 1)

/-- Model of `withRetry` (src/utils/retry.ts), with the configuration
already merged over the defaults. -/
def withRetry {α : Type} (fn : Nat → Except SdkError α) (cfg : RetryConfig) : RetryOutcome α :=
  withRetryAux fn cfg cfg.maxAttempts 0 cfg.initialDelay [] 0

theorem withRetryAux_retry_step {α : Type} (fn : Nat → Except SdkError α) (cfg : RetryConfig)
    (remaining attempt : Nat) (delay : ℚ) (sleeps : List ℚ) (calls : Nat) (e : SdkError)
    (hfn : fn attempt = .error e)
    (hcont : ¬ (shouldRetryErr cfg e = false ∨ cfg.maxAttempts ≤ attempt + 1)) :
    withRetryAux fn cfg (remaining + 1) attempt delay sleeps calls =
      withRetryAux fn cfg remaining (attempt + 1)
        (ratMin (hintedDelay e delay * cfg.backoffFactor) cfg.maxDelay)
        (hintedDelay e delay :: sleeps) (calls + 1) := by
  simp only [withRetryAux, hfn]
  rw [if_neg hcont]

/-- Script for the C3 counterexample: a RateLimit failure hinting 5
seconds, then a Server failure, then success. -/
def c3Script : Nat → Except SdkError Nat :=
  fun i =>
    if i = 0 then .error (.rateLimit "rate limited" (some (JSNum.int 5)) (some 429))
    else if i = 1 then .error (.server "boom" (some 500))
    else .ok 7

/-- Script for the C3 counterexample, zero-seconds hint: a RateLimit
failure carrying `retryAfter = 0`, then success. -/
def c3ZeroScript : Nat → Except SdkError Nat :=
  fun i =>
    if i = 0 then .error (.rateLimit "rate limited" (some (JSNum.int 0)) (some 429))
    else .ok 7

/-- C3 counterexample: under the default config, after a hinted 5000 ms
sleep the next non-hinted retry sleeps 10000 ms — the hint entered the
geometric sequence (`min(5000 * 2, 60000)`), not the pre-hint schedule
value 1000 or 2000 ms; and a RateLimit error carrying `retryAfter = 0`
is falsy, so the engine sleeps the 1000 ms backoff delay instead of
the claimed `0 * 1000` ms. -/
theorem C3_counterexample :
    (withRetry c3Script defaultConfig).sleeps = [5000, 10000] ∧
    (withRetry c3ZeroScript defaultConfig).sleeps = [1000] := by
  constructor <;>
    norm_num [withRetry, withRetryAux, c3Script, c3ZeroScript, defaultConfig, shouldRetryErr,
      instanceOf, ratMin, hintedDelay]

/-- C3 (amended): when a retryable RateLimit failure carries a non-null
integer hint `n`, the sleep before the next attempt is `n * 1000` ms
if `n` is non-zero and the current backoff delay if `n = 0` (zero is
falsy in the source's truthiness test); either way the slept value —
hint included — seeds the exponential-backoff update, so the delay
carried into the rest of the run is `min(slept * backoffFactor,
maxDelay)`, not the pre-hint schedule value. -/
theorem C3_amended {α : Type} (fn : Nat → Except SdkError α) (cfg : RetryConfig)
    (remaining attempt : Nat) (delay : ℚ) (sleeps : List ℚ) (calls : Nat)
    (msg : String) (st : Option Nat) (n : Int)
    (hfn : fn attempt = .error (.rateLimit msg (some (JSNum.int n)) st))
    (hretry : shouldRetryErr cfg (.rateLimit msg (some (JSNum.int n)) st) = true)
    (hatt : attempt + 1 < cfg.maxAttempts) :
    withRetryAux fn cfg (remaining + 1) attempt delay sleeps calls =
      withRetryAux fn cfg remaining (attempt + 1)
        (ratMin ((if n ≠ 0 then (n : ℚ) * 1000 else delay) * cfg.backoffFactor) cfg.maxDelay)
        ((if n ≠ 0 then (n : ℚ) * 1000 else delay) :: sleeps) (calls + 1) := by
  have hcond : ¬ (shouldRetryErr cfg (.rateLimit msg (some (JSNum.int n)) st) = false ∨
      cfg.maxAttempts ≤ attempt + 1) := by
    rw [hretry]
    push_neg
    exact ⟨by simp, by omega⟩
  rw [withRetryAux_retry_step fn cfg remaining attempt delay sleeps calls _ hfn hcond]
  simp only [hintedDelay]

/-- Witness for C3 (amended) at the counterexample script: the hinted
step sleeps 5000 ms and carries delay `min(10000, 60000)` forward. -/
theorem C3_amended_witness :
    withRetryAux c3Script defaultConfig 3 0 1000 [] 0 =
      withRetryAux c3Script defaultConfig 2 1 10000 [5000] 1 := by
  have h := C3_amended c3Script defaultConfig 2 0 1000 [] 0 "rate limited" (some 429) 5
    rfl (by decide) (by decide)
  rw [show ((if (5 : Int) ≠ 0 then ((5 : Int) : ℚ) * 1000 else (1000 : ℚ))) = 5000 from by
    norm_num] at h
  rw [show ratMin ((5000 : ℚ) * defaultConfig.backoffFactor) defaultConfig.maxDelay = 10000 from
    by norm_num [ratMin, defaultConfig]] at h
  exact h

theorem withRetryAux_exhaust {α : Type} (fn : Nat → Except SdkError α) (cfg : RetryConfig)
    (errs : Nat → SdkError) :
    ∀ remaining attempt delay sleeps calls,
      1 ≤ remaining → attempt + remaining = cfg.maxAttempts →
      (∀ i, attempt ≤ i → i < cfg.maxAttempts →
        fn i = .error (errs i) ∧ shouldRetryErr cfg (errs i) = true) →
      (withRetryAux fn cfg remaining attempt delay sleeps calls).result =
          .error (errs (cfg.maxAttempts - 1)) ∧
      (withRetryAux fn cfg remaining attempt delay sleeps calls).calls = calls + remaining := by
  intro remaining
  induction remaining with
  | zero => intro _ _ _ _ h1 _ _; omega
  | succ r ih =>
    intro attempt delay sleeps calls _ hsum hall
    have hi := hall attempt (le_refl _) (by omega)
    cases r with
    | zero =>
      have hexit : shouldRetryErr cfg (errs attempt) = false ∨ cfg.maxAttempts ≤ attempt + 1 :=
        Or.inr (by omega)
      have hattempt : attempt = cfg.maxAttempts - 1 := by omega
      simp only [withRetryAux, hi.1]
      rw [if_pos hexit, hattempt]
      exact ⟨rfl, by simp⟩
    | succ r2 =>
      have hcont : ¬ (shouldRetryErr cfg (errs attempt) = false ∨
          cfg.maxAttempts ≤ attempt + 1) := by
        push_neg
        refine ⟨?_, by omega⟩
        rw [hi.2]
        simp
      rw [withRetryAux_retry_step fn cfg (r2 + 1) attempt delay sleeps calls _ hi.1 hcont]
      obtain ⟨h1, h2⟩ := ih (attempt + 1)
        (ratMin (hintedDelay (errs attempt) delay * cfg.backoffFactor) cfg.maxDelay)
        (hintedDelay (errs attempt) delay :: sleeps) (calls + 1)
        (by omega) (by omega) (fun i ha hb => hall i (by omega) hb)
      exact ⟨h1, by rw [h2]; omega⟩

/-- C6: a first-attempt error whose class is not retryable propagates
unchanged after exactly one invocation; with an empty retryable set
the operation runs exactly once whatever its outcome; and when every
allowed attempt fails retryably, the last underlying error — never
the synthetic max-attempts error — is what propagates, after exactly
`maxAttempts` invocations. -/
theorem C6_terminal_errors {α : Type} (fn : Nat → Except SdkError α) (cfg : RetryConfig)
    (hmax : 1 ≤ cfg.maxAttempts) :
    (∀ e, fn 0 = .error e → shouldRetryErr cfg e = false →
      withRetry fn cfg = ⟨.error e, [], 1⟩) ∧
    (cfg.retryOn = [] → (withRetry fn cfg).result = fn 0 ∧ (withRetry fn cfg).calls = 1) ∧
    (∀ errs : Nat → SdkError,
      (∀ i, i < cfg.maxAttempts → fn i = .error (errs i) ∧ shouldRetryErr cfg (errs i) = true) →
      (withRetry fn cfg).result = .error (errs (cfg.maxAttempts - 1)) ∧
      (withRetry fn cfg).calls = cfg.maxAttempts) := by
  refine ⟨?_, ?_, ?_⟩
  · intro e hfn hnr
    obtain ⟨k, hk⟩ : ∃ k, cfg.maxAttempts = k + 1 := ⟨cfg.maxAttempts - 1, by omega⟩
    unfold withRetry
    rw [hk]
    simp only [withRetryAux, hfn]
    rw [if_pos (Or.inl hnr)]
    rfl
  · intro hempty
    have hnr : ∀ e, shouldRetryErr cfg e = false := by
      intro e
      simp [shouldRetryErr, hempty]
    obtain ⟨k, hk⟩ : ∃ k, cfg.maxAttempts = k + 1 := ⟨cfg.maxAttempts - 1, by omega⟩
    cases hfn : fn 0 with
    | ok v =>
      unfold withRetry
      rw [hk]
      simp only [withRetryAux, hfn]
      exact ⟨by simp, by simp⟩
    | error e =>
      unfold withRetry
      rw [hk]
      simp only [withRetryAux, hfn]
      rw [if_pos (Or.inl (hnr e))]
      exact ⟨by simp, by simp⟩
  · intro errs hall
    have h := withRetryAux_exhaust fn cfg errs cfg.maxAttempts 0 cfg.initialDelay [] 0
      (by omega) (by omega) (fun i _ h2 => hall i h2)
    exact ⟨h.1, by simpa using h.2⟩

/-- Script that always fails with a non-retryable ValidationError. -/
def c6ValScript : Nat → Except SdkError Nat :=
  fun _ => .error (.validation "bad payload" (some 422))

/-- Script that always fails with a retryable ServerError. -/
def c6ServerScript : Nat → Except SdkError Nat :=
  fun _ => .error (.server "boom" (some 500))

/-- A config whose retryable set is empty. -/
def emptyRetryConfig : RetryConfig :=
  { maxAttempts := 3, backoffFactor := 2, initialDelay := 1000, maxDelay := 60000,
    retryOn := [] }

/-- Witness for C6: a ValidationError propagates unchanged after one
call under the default config, an empty retryable set gives exactly
one call, and exhausting three ServerError attempts surfaces the last
ServerError after exactly three calls. -/
theorem C6_terminal_errors_witness :
    withRetry c6ValScript defaultConfig =
      ⟨.error (.validation "bad payload" (some 422)), [], 1⟩ ∧
    (withRetry (fun _ => Except.ok (42 : Nat)) emptyRetryConfig).calls = 1 ∧
    (withRetry c6ServerScript defaultConfig).result = .error (.server "boom" (some 500)) ∧
    (withRetry c6ServerScript defaultConfig).calls = 3 := by
  refine ⟨?_, ?_, ?_, ?_⟩
  · exact (C6_terminal_errors c6ValScript defaultConfig (by decide)).1
      (.validation "bad payload" (some 422)) rfl (by decide)
  · exact ((C6_terminal_errors (fun _ => Except.ok (42 : Nat)) emptyRetryConfig
      (by decide)).2.1 rfl).2
  · exact ((C6_terminal_errors c6ServerScript defaultConfig (by decide)).2.2
      (fun _ => .server "boom" (some 500)) (fun i _ => ⟨rfl, by
        show shouldRetryErr defaultConfig (.server "boom" (some 500)) = true
        decide⟩)).1
  · exact ((C6_terminal_errors c6ServerScript defaultConfig (by decide)).2.2
      (fun _ => .server "boom" (some 500)) (fun i _ => ⟨rfl, by
        show shouldRetryErr defaultConfig (.server "boom" (some 500)) = true
        decide⟩)).2

/-- The `RenderRecord` of src/resources/render.ts.  The status arrives
from the wire as a string; other strings than the four documented tags
are possible at runtime and are treated as non-terminal. -/
structure RenderRecord where
  id : String
  designId : String
  format : String
  status : String
  outputUrl : Option String
  fileSize : Nat
  createdAt : String
  completedAt : Option String
  error : Option String
deriving DecidableEq, Repr

/-- How a `waitForCompletion` run can settle: resolving with the
record, rejecting with the failure message, or rejecting with the
timeout message. -/
inductive WaitResult (α : Type) where
  | completed (record : α)
  | jobFailed (message : String)
  | timedOut (message : String)
deriving DecidableEq, Repr

/-- JavaScript `options.x || default` for the numeric wait options: an
explicit 0 and an absent (`undefined`) option both fall back to the
default. -/
def jsOrNat (o : Option Nat) (d : Nat) : Nat :=
  match o with
  | some v => if v = 0 then d else v
  | none => d

/-- Loop of `waitForCompletion` (src/resources/render.ts), driven by a
script: each entry gives the wall-clock milliseconds a `getStatus`
poll consumes together with the record it returns, and
`sleep(pollInterval)` advances the clock by exactly `pollInterval`.
`elapsed` is `Date.now() - startTime` at the loop head, checked
against the timeout before each poll.  `none` means the script was
exhausted before the loop settled. -/
def waitForCompletionAux (timeout pollInterval : Nat) :
    List (Nat × RenderRecord) → Nat → Option (WaitResult RenderRecord)
  | script, elapsed =>
    if elapsed < timeout then
      match script with
      | [] => none
      | (d, status) :: rest =>
        if status.status = "completed" then some (.completed status)
        else if status.status = "failed" then
          some (.jobFailed ("Render job failed: " ++ jsOrStr status.error "Unknown error"))
        else waitForCompletionAux timeout pollInterval rest (elapsed + d + pollInterval)
    else some (.timedOut ("Render job timed out after " ++ natToDecimal timeout ++ "ms"))

/-- Model of `waitForCompletion` (src/resources/render.ts), including
its option defaulting `options.timeout || 300000` and
`options.pollInterval || 2000`. -/
def waitForCompletion (timeoutOpt pollIntervalOpt : Option Nat)
    (script : List (Nat × RenderRecord)) : Option (WaitResult RenderRecord) :=
  waitForCompletionAux (jsOrNat timeoutOpt 300000) (jsOrNat pollIntervalOpt 2000) script 0

/-- The batch status payload of src/resources/render.ts: the server's
ordered job list and its authoritative `completed` flag. -/
structure BatchStatusResponse where
  jobs : List RenderRecord
  completed : Bool
deriving DecidableEq, Repr

/-- How a `waitForBatch` run can settle. -/
inductive BatchWaitResult where
  | resolved (jobs : List RenderRecord)
  | timedOut (message : String)
deriving DecidableEq, Repr

/-- Loop of `waitForBatch` (src/resources/render.ts), scripted like
`waitForCompletionAux`: each entry is the duration and payload of one
batch-status poll. -/
def waitForBatchAux (timeout pollInterval : Nat) :
    List (Nat × BatchStatusResponse) → Nat → Option BatchWaitResult
  | script, elapsed =>
    if elapsed < timeout then
      match script with
      | [] => none
      | (d, response) :: rest =>
        if response.completed then some (.resolved response.jobs)
        else waitForBatchAux timeout pollInterval rest (elapsed + d + pollInterval)
    else some (.timedOut ("Batch render timed out after " ++ natToDecimal timeout ++ "ms"))

/-- Model of `waitForBatch` (src/resources/render.ts), including its
option defaulting `options.timeout || 600000` and
`options.pollInterval || 5000`. -/
def waitForBatch (timeoutOpt pollIntervalOpt : Option Nat)
    (script : List (Nat × BatchStatusResponse)) : Option BatchWaitResult :=
  waitForBatchAux (jsOrNat timeoutOpt 600000) (jsOrNat pollIntervalOpt 5000) script 0

/-- C7: the single-job wait loop checks elapsed time against the
timeout before every poll (a run whose elapsed time has reached the
timeout times out without consuming any poll), resolves with the
record on the first poll whose status is `completed`, rejects with the
job's failure reason on the first `failed` poll, treats every other
status as non-terminal — sleeping `pollInterval` and polling again —
and times out whenever a script of non-terminal statuses spans the
timeout. -/
theorem C7_waitForCompletion (timeout pollInterval : Nat) :
    (∀ script elapsed, timeout ≤ elapsed →
      waitForCompletionAux timeout pollInterval script elapsed =
        some (.timedOut ("Render job timed out after " ++ natToDecimal timeout ++ "ms"))) ∧
    (∀ d r rest elapsed, elapsed < timeout → r.status = "completed" →
      waitForCompletionAux timeout pollInterval ((d, r) :: rest) elapsed =
        some (.completed r)) ∧
    (∀ d r rest elapsed, elapsed < timeout → r.status = "failed" →
      waitForCompletionAux timeout pollInterval ((d, r) :: rest) elapsed =
        some (.jobFailed ("Render job failed: " ++ jsOrStr r.error "Unknown error"))) ∧
    (∀ d r rest elapsed, elapsed < timeout → r.status ≠ "completed" → r.status ≠ "failed" →
      waitForCompletionAux timeout pollInterval ((d, r) :: rest) elapsed =
        waitForCompletionAux timeout pollInterval rest (elapsed + d + pollInterval)) ∧
    (∀ script elapsed,
      (∀ p ∈ script, (p.2).status ≠ "completed" ∧ (p.2).status ≠ "failed") →
      timeout ≤ elapsed + (script.map (fun p => p.1 + pollInterval)).sum →
      waitForCompletionAux timeout pollInterval script elapsed =
        some (.timedOut ("Render job timed out after " ++ natToDecimal timeout ++ "ms"))) := by
  refine ⟨?_, ?_, ?_, ?_, ?_⟩
  · intro script elapsed h
    cases script with
    | nil => simp [waitForCompletionAux, Nat.not_lt.mpr h]
    | cons p rest =>
      obtain ⟨d, r⟩ := p
      simp [waitForCompletionAux, Nat.not_lt.mpr h]
  · intro d r rest elapsed he hs
    simp [waitForCompletionAux, he, hs]
  · intro d r rest elapsed he hs
    have hne : r.status ≠ "completed" := by
      rw [hs]
      decide
    simp [waitForCompletionAux, he, hne, hs]
  · intro d r rest elapsed he h1 h2
    simp [waitForCompletionAux, he, h1, h2]
  · intro script
    induction script with
    | nil =>
      intro elapsed _ hsum
      simp only [List.map_nil, List.sum_nil, Nat.add_zero] at hsum
      simp [waitForCompletionAux, Nat.not_lt.mpr hsum]
    | cons p rest ih =>
      intro elapsed hall hsum
      by_cases he : elapsed < timeout
      · obtain ⟨d, r⟩ := p
        have hterm := hall (d, r) (by simp)
        simp only [waitForCompletionAux, he, if_true, hterm.1, hterm.2, if_false]
        exact ih (elapsed + d + pollInterval)
          (fun q hq => hall q (by simp [hq]))
          (by simp only [List.map_cons, List.sum_cons] at hsum; omega)
      · simp [waitForCompletionAux, he]

/-- Sample records for the wait-loop witnesses. -/
def sampleRec (st : String) (err : Option String) : RenderRecord :=
  ⟨"job-123", "design-1", "png", st, none, 0, "t0", none, err⟩

/-- Witness for C7: a processing poll is stepped over, a completed poll
resolves, a failed poll rejects with the reason, and a deadline
already reached times out. -/
theorem C7_waitForCompletion_witness :
    waitForCompletionAux 100 10 [(5, sampleRec "processing" none),
      (5, sampleRec "completed" none)] 0 =
      some (.completed (sampleRec "completed" none)) ∧
    waitForCompletionAux 100 10 [(5, sampleRec "failed" (some "bad element"))] 0 =
      some (.jobFailed "Render job failed: bad element") ∧
    waitForCompletionAux 100 10 [(5, sampleRec "completed" none)] 100 =
      some (.timedOut "Render job timed out after 100ms") := by
  have h := C7_waitForCompletion 100 10
  refine ⟨?_, ?_, ?_⟩
  · rw [h.2.2.2.1 5 (sampleRec "processing" none) [(5, sampleRec "completed" none)] 0
      (by decide) (by decide) (by decide)]
    exact h.2.1 5 (sampleRec "completed" none) [] 15 (by decide) rfl
  · have h2 := h.2.2.1 5 (sampleRec "failed" (some "bad element")) [] 0 (by decide) rfl
    rw [show jsOrStr (sampleRec "failed" (some "bad element")).error "Unknown error" =
      "bad element" from by decide] at h2
    exact h2
  · have h3 := h.1 [(5, sampleRec "completed" none)] 100 (by decide)
    rw [show natToDecimal 100 = "100" from by decide] at h3
    exact h3

/-- C8: the batch wait loop checks the deadline before every poll,
resolves with the server's ordered job list exactly when the
server-reported `completed` flag is true, keeps polling whenever the
flag is false no matter what the individual job statuses say (so no
per-job `failed` status can reject the batch early), and any resolved
outcome originates from a polled response whose flag was true. -/
theorem C8_waitForBatch (timeout pollInterval : Nat) :
    (∀ script elapsed, timeout ≤ elapsed →
      waitForBatchAux timeout pollInterval script elapsed =
        some (.timedOut ("Batch render timed out after " ++ natToDecimal timeout ++ "ms"))) ∧
    (∀ d resp rest elapsed, elapsed < timeout → resp.completed = true →
      waitForBatchAux timeout pollInterval ((d, resp) :: rest) elapsed =
        some (.resolved resp.jobs)) ∧
    (∀ d resp rest elapsed, elapsed < timeout → resp.completed = false →
      waitForBatchAux timeout pollInterval ((d, resp) :: rest) elapsed =
        waitForBatchAux timeout pollInterval rest (elapsed + d + pollInterval)) ∧
    (∀ script elapsed jobs,
      waitForBatchAux timeout pollInterval script elapsed = some (.resolved jobs) →
      ∃ i d resp, script.get? i = some (d, resp) ∧ resp.completed = true ∧
        jobs = resp.jobs) := by
  refine ⟨?_, ?_, ?_, ?_⟩
  · intro script elapsed h
    cases script with
    | nil => simp [waitForBatchAux, Nat.not_lt.mpr h]
    | cons p rest =>
      obtain ⟨d, resp⟩ := p
      simp [waitForBatchAux, Nat.not_lt.mpr h]
  · intro d resp rest elapsed he hc
    simp [waitForBatchAux, he, hc]
  · intro d resp rest elapsed he hc
    simp [waitForBatchAux, he, hc]
  · intro script
    induction script with
    | nil =>
      intro elapsed jobs hrun
      by_cases he : elapsed < timeout
      · simp [waitForBatchAux, he] at hrun
      · simp [waitForBatchAux, he] at hrun
    | cons p rest ih =>
      intro elapsed jobs hrun
      obtain ⟨d, resp⟩ := p
      by_cases he : elapsed < timeout
      · by_cases hc : resp.completed
        · simp only [waitForBatchAux, he, if_true, hc] at hrun
          refine ⟨0, d, resp, rfl, hc, ?_⟩
          simpa using hrun.symm
        · have hcf : resp.completed = false := by
            simp at hc
            exact hc
          simp only [waitForBatchAux, he, if_true, hcf, Bool.false_eq_true, if_false] at hrun
          obtain ⟨i, d2, resp2, hget, hcomp, hjobs⟩ :=
            ih (elapsed + d + pollInterval) jobs hrun
          exact ⟨i + 1, d2, resp2, hget, hcomp, hjobs⟩
      · simp [waitForBatchAux, he] at hrun

/-- A batch response whose every job reads completed while the server
flag still says false. -/
def spoofResponse : BatchStatusResponse :=
  ⟨[sampleRec "completed" none, sampleRec "completed" none], false⟩

/-- Witness for C8: a response whose jobs all read completed but whose
flag is false is stepped over rather than resolved, the run then times
out, and a true flag resolves with the server's job list. -/
theorem C8_waitForBatch_witness :
    waitForBatchAux 100 10 [(5, spoofResponse)] 0 = waitForBatchAux 100 10 [] 15 ∧
    waitForBatchAux 100 10 [(5, spoofResponse)] 100 =
      some (.timedOut "Batch render timed out after 100ms") ∧
    waitForBatchAux 100 10 [(5, ⟨[sampleRec "failed" none], true⟩)] 0 =
      some (.resolved [sampleRec "failed" none]) := by
  have h := C8_waitForBatch 100 10
  refine ⟨?_, ?_, ?_⟩
  · exact h.2.2.1 5 spoofResponse [] 0 (by decide) rfl
  · have h2 := h.1 [(5, spoofResponse)] 100 (by decide)
    rw [show natToDecimal 100 = "100" from by decide] at h2
    exact h2
  · exact h.2.1 5 ⟨[sampleRec "failed" none], true⟩ [] 0 (by decide) rfl

/-- C10: passing an explicit 0 for the timeout or poll interval of
either wait loop is exactly the same as omitting the option: the `||`
defaulting replaces a falsy 0 by the documented defaults (300000 and
2000 ms for a single job, 600000 and 5000 ms for a batch). -/
theorem C10_zero_options (script : List (Nat × RenderRecord))
    (bscript : List (Nat × BatchStatusResponse)) :
    waitForCompletion (some 0) (some 0) script = waitForCompletion none none script ∧
    waitForCompletion none none script = waitForCompletionAux 300000 2000 script 0 ∧
    waitForBatch (some 0) (some 0) bscript = waitForBatch none none bscript ∧
    waitForBatch none none bscript = waitForBatchAux 600000 5000 bscript 0 ∧
    jsOrNat (some 0) 300000 = jsOrNat none 300000 ∧
    jsOrNat (some 0) 2000 = jsOrNat none 2000 ∧
    jsOrNat (some 0) 600000 = jsOrNat none 600000 ∧
    jsOrNat (some 0) 5000 = jsOrNat none 5000 :=
  ⟨rfl, rfl, rfl, rfl, rfl, rfl, rfl, rfl⟩
